import Mathlib

/-!
Verification of the transcription result cache
(`src/cache/transcription_cache.py` together with its eviction helpers in
`src/cache/eviction.py`).

The Python module is embedded shallowly: dataclasses become structures,
methods become functions, the mutable cache object becomes explicit state
passing, and both `while` loops of `_evict_if_needed` are given a fuel
parameter (returning `none` when the fuel is exhausted while the loop
condition still holds, so genuine non-termination of the source loop is
expressible as "none for every fuel").

External collaborators that are not part of the embedded sources are
modelled from the specification and marked as such in their doc comments:
the cryptographic digest (hashlib) is an abstract function parameter, the
storage backends (the `.backends` module) follow the StorageTier contract,
and the value codec (the `.compression` module) is an explicit encoder /
decoder pair.
-/

/-- A primitive JSON-representable settings value, as passed in the
`settings` map of `CacheKey.from_file` (`json.dumps` input). -/
inductive Prim where
  | pstr (s : String)
  | pint (n : Int)
  | pbool (b : Bool)
  | pnull
deriving DecidableEq, Repr

/-- Rendering of a primitive, mirroring the json library's output for
primitives (string escaping is not modelled; settings values are plain). -/
def Prim.json : Prim → String
  | .pstr s => "\"" ++ s ++ "\""
  | .pint n => toString n
  | .pbool b => if b then "true" else "false"
  | .pnull => "null"

/-- Association-list lookup used to model Python dict lookup. -/
def alookup {α β : Type} [DecidableEq α] : List (α × β) → α → Option β
  | [], _ => none
  | (a, b) :: t, k => if a = k then some b else alookup t k

/-- Ordering of settings entries by key, as `json.dumps(..., sort_keys=True)`
orders the members of an object. -/
def keyLE (a b : String × Prim) : Prop := a.1 ≤ b.1

/-- Strict version of `keyLE`, used to show that sorting a map with distinct
keys has a unique result. -/
def keyLT (a b : String × Prim) : Prop := a.1 < b.1

instance : DecidableRel keyLE := fun a b => inferInstanceAs (Decidable (a.1 ≤ b.1))

instance : IsTotal (String × Prim) keyLE := ⟨fun a b => le_total a.1 b.1⟩

instance : IsTrans (String × Prim) keyLE := ⟨fun _ _ _ h h2 => le_trans h h2⟩

instance : IsAntisymm (String × Prim) keyLT :=
  ⟨fun _ _ h h2 => absurd (lt_trans h h2) (lt_irrefl _)⟩

/-- `json.dumps(settings, sort_keys=True)`: serialize the map with its
entries in sorted key order (line 90 of transcription_cache.py). -/
def dumps_sorted (settings : List (String × Prim)) : String :=
  let sorted := settings.insertionSort keyLE
  "\x7b" ++ String.intercalate ", "
    (sorted.map fun kv => "\"" ++ kv.1 ++ "\": " ++ kv.2.json) ++ "\x7d"

/-- The key of the class-level `_file_hash_cache` memo:
`(str(file_path), stat.st_mtime, stat.st_size)`. -/
abbrev StatKey := String × Int × Nat

/-- The class-level `_file_hash_cache` memo itself. -/
abbrev HashMemo := List (StatKey × String)

/-- Content-based cache key `(file_hash, provider, settings_hash)`
(dataclass `CacheKey`). -/
structure CacheKey where
  file_hash : String
  provider : String
  settings_hash : String
deriving DecidableEq, Repr

/-- `CacheKey.__str__`: "file_hash:provider:settings_hash". -/
def CacheKey.str (k : CacheKey) : String :=
  k.file_hash ++ ":" ++ k.provider ++ ":" ++ k.settings_hash

/-- `CacheKey._hash_file`: look the file's `(path, mtime, size)` tuple up in
the memo; on a miss, stream-hash the content and record the first 32 hex
characters of the digest in the memo. The digest `H` (hashlib's sha256 over
the streamed chunks, which for a fixed chunking equals the digest of the
whole content) is an abstract parameter; the file's bytes are `content`. -/
def CacheKey._hash_file (H : String → String) (memo : HashMemo)
    (path : String) (mtime : Int) (fsize : Nat) (content : String) :
    String × HashMemo :=
  match alookup memo (path, mtime, fsize) with
  | some h => (h, memo)
  | none =>
      let file_hash := (H content).take 32
      (file_hash, ((path, mtime, fsize), file_hash) :: memo)

/-- `CacheKey.from_file`: hash the file content (through the memo), hash the
canonically serialized settings (keys sorted, digest truncated to 16
characters), and assemble the key. -/
def CacheKey.from_file (H : String → String) (memo : HashMemo)
    (path : String) (mtime : Int) (fsize : Nat) (content : String)
    (provider : String) (settings : List (String × Prim)) :
    CacheKey × HashMemo :=
  let fh := CacheKey._hash_file H memo path mtime fsize content
  let settings_hash := (H (dumps_sorted settings)).take 16
  (⟨fh.1, provider, settings_hash⟩, fh.2)

/-- The memo is consistent for a given stat tuple and current content: any
memoized hash for that tuple is the (truncated) digest of that content.
This is the best-effort invariant the spec states for ContentHashMemo. -/
def memoOk (H : String → String) (memo : HashMemo) (sk : StatKey)
    (content : String) : Prop :=
  ∀ h, alookup memo sk = some h → h = (H content).take 32

lemma _hash_file_fst (H : String → String) (memo : HashMemo)
    (path : String) (mtime : Int) (fsize : Nat) (content : String)
    (hm : memoOk H memo (path, mtime, fsize) content) :
    (CacheKey._hash_file H memo path mtime fsize content).1 =
      (H content).take 32 := by
  unfold CacheKey._hash_file
  cases hh : alookup memo (path, mtime, fsize) with
  | none => simp [hh]
  | some h => simpa [hh] using hm h hh

lemma insertionSort_keyLE_eq_of_perm (l₁ l₂ : List (String × Prim))
    (hp : l₁.Perm l₂) (hn : (l₁.map Prod.fst).Nodup) :
    l₁.insertionSort keyLE = l₂.insertionSort keyLE := by
  have hperm : (l₁.insertionSort keyLE).Perm (l₂.insertionSort keyLE) :=
    (List.perm_insertionSort keyLE l₁).trans
      (hp.trans (List.perm_insertionSort keyLE l₂).symm)
  have hne₁ : List.Pairwise (fun a b : String × Prim => a.1 ≠ b.1) l₁ := by
    have := hn
    rw [List.Nodup, List.pairwise_map] at this
    exact this
  have strict : ∀ l : List (String × Prim),
      List.Pairwise (fun a b : String × Prim => a.1 ≠ b.1) l →
      List.Sorted keyLE l → List.Sorted keyLT l := by
    intro l hnd hs
    have := hs.and hnd
    exact this.imp (fun h => lt_of_le_of_ne h.1 h.2)
  have hnd₁ : List.Pairwise (fun a b : String × Prim => a.1 ≠ b.1)
      (l₁.insertionSort keyLE) :=
    ((List.perm_insertionSort keyLE l₁).pairwise_iff
      (fun h => Ne.symm h)).mpr hne₁
  have hnd₂ : List.Pairwise (fun a b : String × Prim => a.1 ≠ b.1)
      (l₂.insertionSort keyLE) :=
    (hperm.pairwise_iff (fun h => Ne.symm h)).mp hnd₁
  exact List.eq_of_perm_of_sorted hperm
    (strict _ hnd₁ (List.sorted_insertionSort keyLE l₁))
    (strict _ hnd₂ (List.sorted_insertionSort keyLE l₂))

/-- C1: key construction is deterministic — two independently constructed
fingerprint keys built over the same digest from the same file content, the
same provider name, and settings maps that are equal as maps (permutations
of each other, with no duplicate keys, i.e. deep-equal dicts supplied in any
iteration order) are identical, whatever the memo states and stat tuples of
the two constructions, provided each memo is consistent for its file. -/
theorem c1_key_determinism (H : String → String) (memo₁ memo₂ : HashMemo)
    (p₁ p₂ : String) (m₁ m₂ : Int) (z₁ z₂ : Nat) (content provider : String)
    (l₁ l₂ : List (String × Prim))
    (hm₁ : memoOk H memo₁ (p₁, m₁, z₁) content)
    (hm₂ : memoOk H memo₂ (p₂, m₂, z₂) content)
    (hp : l₁.Perm l₂) (hn : (l₁.map Prod.fst).Nodup) :
    (CacheKey.from_file H memo₁ p₁ m₁ z₁ content provider l₁).1 =
      (CacheKey.from_file H memo₂ p₂ m₂ z₂ content provider l₂).1 := by
  unfold CacheKey.from_file
  have h₁ := _hash_file_fst H memo₁ p₁ m₁ z₁ content hm₁
  have h₂ := _hash_file_fst H memo₂ p₂ m₂ z₂ content hm₂
  have hs : dumps_sorted l₁ = dumps_sorted l₂ := by
    unfold dumps_sorted
    rw [insertionSort_keyLE_eq_of_perm l₁ l₂ hp hn]
  simp [h₁, h₂, hs]

/-- Witness for C1 at a concrete input: the identity digest, empty memos,
two different paths holding the same content, and the same two-entry
settings map supplied in both iteration orders. -/
theorem c1_key_determinism_witness :
    (CacheKey.from_file id [] "a.mp3" 5 9 "bytes" "whisper"
        [("model", Prim.pstr "base"), ("lang", Prim.pstr "en")]).1 =
      (CacheKey.from_file id [] "copy.mp3" 7 9 "bytes" "whisper"
        [("lang", Prim.pstr "en"), ("model", Prim.pstr "base")]).1 :=
  c1_key_determinism id [] [] "a.mp3" "copy.mp3" 5 7 9 9 "bytes" "whisper"
    [("model", Prim.pstr "base"), ("lang", Prim.pstr "en")]
    [("lang", Prim.pstr "en"), ("model", Prim.pstr "base")]
    (by intro h hh; simp [alookup] at hh)
    (by intro h hh; simp [alookup] at hh)
    (by decide) (by decide)

/-- A cached Python value as it appears in `CacheEntry.value` and in the
`metadata` map. The representative types are a string, an arbitrary-precision
integer and `None` (all natively JSON-serializable) and a bytes object (not
JSON-serializable, so `to_dict` falls back to its `str()` rendering). -/
inductive PyValue where
  | pstr (s : String)
  | pint (n : Int)
  | pbytes (bs : List Nat)
  | pnone
deriving DecidableEq, Repr

/-- `type(value).__name__`, the discriminator written by `to_dict`. -/
def PyValue.typeName : PyValue → String
  | .pstr _ => "str"
  | .pint _ => "int"
  | .pbytes _ => "bytes"
  | .pnone => "NoneType"

/-- Whether `json.dumps(value)` succeeds (the try/except probe inside
`CacheEntry.to_dict`): true for the JSON-native types, false for bytes. -/
def PyValue.jsonSerializable : PyValue → Bool
  | .pbytes _ => false
  | _ => true

/-- Python `str(value)`, used as the serialization fallback. The bytes
rendering mirrors `str(b'...')` with escaping not modelled. -/
def PyValue.pyStr : PyValue → String
  | .pstr s => s
  | .pint n => toString n
  | .pbytes bs => "b\x27" ++ String.mk (bs.map Char.ofNat) ++ "\x27"
  | .pnone => "None"

/-- Cache entry with access tracking and optional TTL (dataclass
`CacheEntry`). Timestamps are instants carried as integers; `ttl` is in
seconds, `none` meaning no expiration. -/
structure CacheEntry where
  key : CacheKey
  value : PyValue
  size : Nat
  created_at : Int
  accessed_at : Int
  access_count : Nat
  ttl : Option Int
  metadata : List (String × PyValue)
deriving DecidableEq, Repr

/-- `CacheEntry.is_expired`: no TTL never expires; otherwise expired exactly
when the age (now − created_at) strictly exceeds the TTL. -/
def CacheEntry.is_expired (e : CacheEntry) (now : Int) : Bool :=
  match e.ttl with
  | none => false
  | some t => (now - e.created_at) > t

/-- `CacheEntry.touch`: update access time and count. -/
def CacheEntry.touch (e : CacheEntry) (now : Int) : CacheEntry :=
  { e with accessed_at := now, access_count := e.access_count + 1 }

/-- The serialized-entry record produced by `CacheEntry.to_dict` (the JSON
schema of §6 of the spec). `created_at`/`accessed_at` are serialized through
`isoformat`/`fromisoformat`, an inverse pair provided by the datetime
library; the record carries the instants themselves. -/
structure EntryDict where
  key : CacheKey
  value : PyValue
  value_type : String
  size : Nat
  created_at : Int
  accessed_at : Int
  access_count : Nat
  ttl : Option Int
  metadata : List (String × PyValue)
deriving DecidableEq, Repr

/-- `CacheEntry.to_dict`: none of the modelled value types has a `to_dict`
method, so the branch taken is the JSON-serializability probe — a
serializable value is stored as-is, anything else as its `str()` fallback. -/
def CacheEntry.to_dict (e : CacheEntry) : EntryDict :=
  let value_dict :=
    if e.value.jsonSerializable then e.value else PyValue.pstr e.value.pyStr
  { key := e.key
    value := value_dict
    value_type := e.value.typeName
    size := e.size
    created_at := e.created_at
    accessed_at := e.accessed_at
    access_count := e.access_count
    ttl := e.ttl
    metadata := e.metadata }

/-- `CacheEntry.from_dict`: the `value_type == "TranscriptionResult"` branch
reconstructs that class from a dict payload; no modelled value is such a
dict, so the reconstruction condition is never met and the value is used
as-is (the source's own graceful-degradation arm). -/
def CacheEntry.from_dict (d : EntryDict) : CacheEntry :=
  let value := d.value
  { key := d.key
    value := value
    size := d.size
    created_at := d.created_at
    accessed_at := d.accessed_at
    access_count := d.access_count
    ttl := d.ttl
    metadata := d.metadata }

/-- Cache statistics (dataclass `CacheStats`). `size_bytes` and
`entry_count` are signed: the source decrements them with ordinary Python
integer arithmetic, which can drive them below zero in drifted states. -/
structure CacheStats where
  hits : Nat := 0
  misses : Nat := 0
  evictions : Nat := 0
  size_bytes : Int := 0
  entry_count : Int := 0
deriving DecidableEq, Repr

/-- `CacheStats.hit_rate`: 0 when there has been no traffic, otherwise
`(hits / total) * 100` — a percentage, computed here over ℚ. -/
def CacheStats.hit_rate (st : CacheStats) : ℚ :=
  let total := st.hits + st.misses
  if total = 0 then 0 else ((st.hits : ℚ) / (total : ℚ)) * 100

/-- Insert-or-replace on an association list, modelling Python dict
assignment (replaces in place, appends new keys at the end, preserving
insertion order). -/
def aupsert : List (String × CacheEntry) → String → CacheEntry →
    List (String × CacheEntry)
  | [], k, e => [(k, e)]
  | (a, b) :: rest, k, e =>
      if a = k then (k, e) :: rest else (a, b) :: aupsert rest k e

/-- Remove a key from an association list (Python `del d[k]`). -/
def aremove : List (String × CacheEntry) → String → List (String × CacheEntry)
  | [], _ => []
  | (a, b) :: rest, k => if a = k then rest else (a, b) :: aremove rest k

/-- Modelled from the spec: a StorageTier — the contract every concrete
backend must satisfy (`get/put/delete/clear/size/keys`); the concrete
backend classes live in the `.backends` module, outside the embedded
sources. The store is a key-ordered map; `putOk` models a backend whose
writes fail (put returning false per the contract). -/
structure Tier where
  store : List (String × CacheEntry)
  putOk : Bool
deriving DecidableEq, Repr

/-- StorageTier `get(key) → Entry | absent`. -/
def Tier.tget (t : Tier) (k : String) : Option CacheEntry :=
  alookup t.store k

/-- StorageTier `put(key, entry) → bool`: false (and no change) when the
backend's write fails. -/
def Tier.tput (t : Tier) (k : String) (e : CacheEntry) : Bool × Tier :=
  if t.putOk then (true, { t with store := aupsert t.store k e }) else (false, t)

/-- StorageTier `delete(key) → bool`: true exactly when the key was
present. -/
def Tier.tdelete (t : Tier) (k : String) : Bool × Tier :=
  if (alookup t.store k).isSome then (true, { t with store := aremove t.store k })
  else (false, t)

/-- StorageTier `keys() → set<string>` (a set, so no order guarantee; the
model carries it as the store's key list). -/
def Tier.tkeys (t : Tier) : List String :=
  t.store.map Prod.fst

/-- StorageTier `clear() → count`. -/
def Tier.tclear (t : Tier) : Nat × Tier :=
  (t.store.length, { t with store := [] })

/-- `select_lru_victim` (eviction.py): the modelled tier is not an
OrderedDict, so the portable fallback path applies — scan for the minimum
`(accessed_at, key)` pair, exactly Python's `min` over those tuples. The
caller guarantees `keys` is nonempty. -/
def select_lru_victim (t : Tier) (keys : List String) : String :=
  let ew := keys.filterMap fun k => (t.tget k).map fun e => (e.accessed_at, k)
  match ew with
  | [] => keys.headD ""
  | x :: xs =>
      (xs.foldl
        (fun acc p =>
          if p.1 < acc.1 ∨ (p.1 = acc.1 ∧ p.2 < acc.2) then p else acc) x).2

/-- The `TranscriptionCache` object's state: the ordered backend list, the
configuration fields, the statistics, and the warm-key tracking.
`warm_keys = none` models the `_warm_keys` attribute being absent
(`__init__` never assigns it); code touching it then raises
AttributeError. -/
structure CacheState where
  backends : List Tier
  max_size_bytes : Int
  max_entries : Int
  default_ttl : Option Int
  enable_compression : Bool
  stats : CacheStats
  warm_keys : Option (List String)
deriving DecidableEq, Repr

/-- `TranscriptionCache.__init__`: default backends are a single fresh
in-memory tier; `max_size_bytes = max_size_mb * 1024 * 1024`; stats start
at zero; no `_warm_keys` attribute is assigned. -/
def TranscriptionCache.init (backends : Option (List Tier)) (max_size_mb : Int)
    (max_entries : Int) (default_ttl : Option Int)
    (enable_compression : Bool) : CacheState :=
  { backends := backends.getD [⟨[], true⟩]
    max_size_bytes := max_size_mb * 1024 * 1024
    max_entries := max_entries
    default_ttl := default_ttl
    enable_compression := enable_compression
    stats := {}
    warm_keys := none }

/-- `TranscriptionCache._evict_one`: choose the LRU victim on tier 0, fetch
it for its size, delete it, and only on a successful delete update the
eviction statistics. Returns false (no state change) when tier 0 reports no
keys. The `backends` list of a constructed cache is never empty; the `[]`
case is unreachable and reports no victim. -/
def TranscriptionCache._evict_one (s : CacheState) : Bool × CacheState :=
  match s.backends with
  | [] => (false, s)
  | t :: rest =>
      let keys := t.tkeys
      if keys.isEmpty then (false, s)
      else
        let victim := select_lru_victim t keys
        match t.tget victim with
        | none => (false, s)
        | some e =>
            let d := t.tdelete victim
            if d.1 then
              (true,
                { s with
                  backends := d.2 :: rest,
                  stats := { s.stats with
                    evictions := s.stats.evictions + 1,
                    entry_count := s.stats.entry_count - 1,
                    size_bytes := s.stats.size_bytes - e.size } })
            else (false, s)

/-- First loop of `_evict_if_needed`:
`while entry_count >= max_entries: self._evict_one()` — the result of
`_evict_one` is ignored. `none` means the fuel ran out with the loop
condition still true, so `none` for every fuel is non-termination of the
source loop. -/
def TranscriptionCache.evictCountLoop : Nat → CacheState → Option CacheState
  | 0, s => if s.stats.entry_count ≥ s.max_entries then none else some s
  | f + 1, s =>
      if s.stats.entry_count ≥ s.max_entries then
        TranscriptionCache.evictCountLoop f (TranscriptionCache._evict_one s).2
      else some s

/-- Second loop of `_evict_if_needed`:
`while size_bytes + required_size > max_size_bytes`, breaking out when
`_evict_one` reports no victim. -/
def TranscriptionCache.evictSizeLoop (required : Int) :
    Nat → CacheState → Option CacheState
  | 0, s => if s.stats.size_bytes + required > s.max_size_bytes then none else some s
  | f + 1, s =>
      if s.stats.size_bytes + required > s.max_size_bytes then
        let r := TranscriptionCache._evict_one s
        if r.1 then TranscriptionCache.evictSizeLoop required f r.2
        else some r.2
      else some s

/-- `TranscriptionCache._evict_if_needed`: the entry-count loop followed by
the size loop. -/
def TranscriptionCache._evict_if_needed (fuel : Nat) (required : Int)
    (s : CacheState) : Option CacheState :=
  (TranscriptionCache.evictCountLoop fuel s).bind
    (TranscriptionCache.evictSizeLoop required fuel)

/-- `TranscriptionCache._calculate_size`: bytes report their length; other
types go through `sys.getsizeof`, an interpreter-specific estimate modelled
by fixed representative sizes (the exact numbers never matter to the
claims). -/
def TranscriptionCache._calculate_size : PyValue → Nat
  | .pbytes bs => bs.length
  | .pstr s => 49 + s.length
  | .pint _ => 28
  | .pnone => 16

/-- `TranscriptionCache._validate_entry_size`: reject entries larger than
the entire cache. -/
def TranscriptionCache._validate_entry_size (max_size_bytes : Int)
    (size : Int) : Bool :=
  !(size > max_size_bytes)

/-- Python `ttl or self.default_ttl` inside `_create_cache_entry`: `or`
takes the right operand whenever the left is falsy, and both `None` and `0`
are falsy integers. -/
def pyOrTTL (ttl default_ttl : Option Int) : Option Int :=
  match ttl with
  | some t => if t = 0 then default_ttl else some t
  | none => default_ttl

/-- `TranscriptionCache._create_cache_entry`: build the entry; creation and
access timestamps default to now, `ttl` is `ttl or self.default_ttl`,
`metadata` is `metadata or {}` (an explicit empty dict is falsy and also
maps to the empty dict, so `getD` is exact here). -/
def TranscriptionCache._create_cache_entry (now : Int) (cache_key : CacheKey)
    (cached_value : PyValue) (size : Nat) (ttl : Option Int)
    (metadata : Option (List (String × PyValue))) (default_ttl : Option Int) :
    CacheEntry :=
  { key := cache_key
    value := cached_value
    size := size
    created_at := now
    accessed_at := now
    access_count := 0
    ttl := pyOrTTL ttl default_ttl
    metadata := metadata.getD [] }

/-- `TranscriptionCache._store_entry_in_backend`: evict if needed, write to
tier 0, and only on a successful write apply the entry-count and size
increments. `none` propagates a non-terminating eviction phase. -/
def TranscriptionCache._store_entry_in_backend (fuel : Nat) (key_str : String)
    (entry : CacheEntry) (size : Nat) (s : CacheState) :
    Option (Bool × CacheState) :=
  (TranscriptionCache._evict_if_needed fuel (size : Int) s).map fun s1 =>
    match s1.backends with
    | [] => (false, s1)
    | t :: rest =>
        let r := t.tput key_str entry
        if r.1 then
          (true,
            { s1 with
              backends := r.2 :: rest,
              stats := { s1.stats with
                entry_count := s1.stats.entry_count + 1,
                size_bytes := s1.stats.size_bytes + size } })
        else (false, { s1 with backends := r.2 :: rest })

/-- `TranscriptionCache.put`, from the point where the fingerprint key has
been built by `CacheKey.from_file`: encode the value when compression is
enabled (`enc` is the external codec's encoder), size and validate it,
build the entry, and store it. -/
def TranscriptionCache.put (fuel : Nat) (now : Int) (enc : PyValue → PyValue)
    (cache_key : CacheKey) (value : PyValue) (ttl : Option Int)
    (metadata : Option (List (String × PyValue))) (s : CacheState) :
    Option (Bool × CacheState) :=
  let key_str := cache_key.str
  let cached_value := if s.enable_compression then enc value else value
  let size := TranscriptionCache._calculate_size cached_value
  if !(TranscriptionCache._validate_entry_size s.max_size_bytes size) then
    some (false, s)
  else
    let entry := TranscriptionCache._create_cache_entry now cache_key
      cached_value size ttl metadata s.default_ttl
    TranscriptionCache._store_entry_in_backend fuel key_str entry size s

/-- `TranscriptionCache._promote_entry`: copy the entry into every backend
with index strictly below `from_level` (`for i in range(from_level)`),
leaving every other backend alone. -/
def TranscriptionCache._promote_entry (key : String) (entry : CacheEntry)
    (from_level : Nat) (tiers : List Tier) : List Tier :=
  tiers.mapIdx fun i t => if i < from_level then (t.tput key entry).2 else t

/-- The tier walk of `TranscriptionCache.get`: `done` holds the already
visited tiers (in order), `todo` the rest. A present-but-expired entry is
deleted from its tier and the walk continues; a usable hit counts a hit,
touches the entry, promotes it into every earlier tier when its index is
positive, and returns the (decoded, when compression is on) value; walking
off the end counts a miss. `dec` is the external codec's decoder, which
yields `none` on a decode failure (the source then returns None). -/
def TranscriptionCache.getWalk (now : Int) (key_str : String) (compress : Bool)
    (dec : PyValue → Option PyValue) :
    List Tier → List Tier → CacheStats →
    Option PyValue × List Tier × CacheStats
  | done, [], st => (none, done, { st with misses := st.misses + 1 })
  | done, t :: rest, st =>
      match t.tget key_str with
      | none => TranscriptionCache.getWalk now key_str compress dec
          (done ++ [t]) rest st
      | some e =>
          if e.is_expired now then
            TranscriptionCache.getWalk now key_str compress dec
              (done ++ [(t.tdelete key_str).2]) rest st
          else
            let e2 := e.touch now
            let tiers :=
              if 0 < done.length then
                TranscriptionCache._promote_entry key_str e2 done.length
                  (done ++ t :: rest)
              else done ++ t :: rest
            let value := if compress then dec e2.value else some e2.value
            (value, tiers, { st with hits := st.hits + 1 })

/-- `TranscriptionCache.get`, from the point where the fingerprint key has
been built: walk the tiers from tier 0. -/
def TranscriptionCache.get (now : Int) (dec : PyValue → Option PyValue)
    (key_str : String) (s : CacheState) : Option PyValue × CacheState :=
  let r := TranscriptionCache.getWalk now key_str s.enable_compression dec
    [] s.backends s.stats
  (r.1, { s with backends := r.2.1, stats := r.2.2 })

/-- `TranscriptionCache.clear`: clear every tier and sum the counts, reset
the statistics, then `self._warm_keys.clear()` — which raises
AttributeError when the attribute was never assigned (the constructor does
not assign it). The returned state reflects the mutations made before the
raise. -/
def TranscriptionCache.clear (s : CacheState) : Except String Nat × CacheState :=
  let cleared := s.backends.map Tier.tclear
  let count := (cleared.map Prod.fst).sum
  let s1 := { s with backends := cleared.map Prod.snd, stats := {} }
  match s.warm_keys with
  | none => (Except.error "AttributeError: _warm_keys", s1)
  | some _ => (Except.ok count, { s1 with warm_keys := some [] })

/-- A file as seen through the OS: its stat tuple and its bytes.
`content = none` models a file that cannot be stat'ed (deleted /
unreadable), so `os.stat` raises OSError. -/
structure PFile where
  path : String
  mtime : Int
  fsize : Nat
  content : Option String
deriving DecidableEq, Repr

/-- `CacheKey._hash_file` including its fallible first step: `os.stat`
raises OSError (the `Except.error` case) before the memo is even consulted;
on a readable file it proceeds as `CacheKey._hash_file`. -/
def CacheKey._hash_file_stat (H : String → String) (memo : HashMemo)
    (f : PFile) : Except Unit (String × HashMemo) :=
  match f.content with
  | none => Except.error ()
  | some c => Except.ok (CacheKey._hash_file H memo f.path f.mtime f.fsize c)

/-- `CacheKey.clear_hash_cache(file_path)`: drop the memo entries whose
path component matches. -/
def CacheKey.clear_hash_cache_path (memo : HashMemo) (path : String) :
    HashMemo :=
  memo.filter fun kv => kv.1.1 ≠ path

/-- The provider filter of `invalidate`'s phase 1:
`if provider and key_provider != provider: continue` — a key survives the
filter when `provider` is falsy (absent or the empty string) or matches. -/
def providerMatch (provider : Option String) (key_provider : String) : Bool :=
  match provider with
  | none => true
  | some p => if p = "" then true else key_provider = p

/-- Splitting a character list on a separator (the grouping underlying
Python's `str.split`). -/
def splitChars (sep : Char) : List Char → List (List Char)
  | [] => [[]]
  | c :: rest =>
      let r := splitChars sep rest
      if c = sep then [] :: r
      else
        match r with
        | [] => [[c]]
        | g :: gs => (c :: g) :: gs

/-- Python `key_str.split(":")` (with sep = a single character): split into
the maximal runs between separators, keeping empty segments. -/
def pySplit (s : String) (sep : Char) : List String :=
  (splitChars sep s.data).map fun cs => String.mk cs

/-- Phase 1 of `invalidate`: scan the key list, silently skipping keys that
do not split into exactly three segments, applying the provider filter,
then — when a file filter is present — recomputing that file's hash (which
can raise OSError, aborting the whole call) and comparing it against the
key's first segment. Returns the matched keys in scan order, threading the
hash memo. -/
def TranscriptionCache.phase1 (H : String → String) (f : Option PFile)
    (provider : Option String) :
    List String → HashMemo → Except Unit (List String) × HashMemo
  | [], memo => (Except.ok [], memo)
  | k :: ks, memo =>
      let parts := pySplit k ':'
      if parts.length ≠ 3 then TranscriptionCache.phase1 H f provider ks memo
      else
        let file_hash := parts.headD ""
        let key_provider := parts.tail.headD ""
        if !(providerMatch provider key_provider) then
          TranscriptionCache.phase1 H f provider ks memo
        else
          match f with
          | none =>
              match TranscriptionCache.phase1 H f provider ks memo with
              | (Except.ok l, memo2) => (Except.ok (k :: l), memo2)
              | r => r
          | some file =>
              match CacheKey._hash_file_stat H memo file with
              | Except.error e => (Except.error e, memo)
              | Except.ok (th, memo2) =>
                  if file_hash ≠ th.take 32 then
                    TranscriptionCache.phase1 H f provider ks memo2
                  else
                    match TranscriptionCache.phase1 H f provider ks memo2 with
                    | (Except.ok l, memo3) => (Except.ok (k :: l), memo3)
                    | r => r

/-- The inner loop of `invalidate`'s phase 2: delete one key from every
backend, counting the successful deletes. -/
def deleteFromAll (k : String) : List Tier → Nat × List Tier
  | [] => (0, [])
  | t :: rest =>
      let d := t.tdelete k
      let r := deleteFromAll k rest
      ((if d.1 then 1 else 0) + r.1, d.2 :: r.2)

/-- Phase 2 of `invalidate`: delete every matched key from every backend,
incrementing the removal count and decrementing `entry_count` once per
successful delete. -/
def TranscriptionCache.phase2 (dels : List String) (tiers : List Tier)
    (st : CacheStats) : Nat × List Tier × CacheStats :=
  dels.foldl
    (fun acc k =>
      let d := deleteFromAll k acc.2.1
      (acc.1 + d.1, d.2,
        { acc.2.2 with entry_count := acc.2.2.entry_count - d.1 }))
    (0, tiers, st)

/-- `TranscriptionCache.invalidate`: phase 1 over the concatenated key sets
of all backends (an OSError raised there propagates, leaving the cache
state untouched), phase 2 deleting the matches, then phase 3 clearing the
hash memo for the given path (or entirely, when no path was given and
something was removed). -/
def TranscriptionCache.invalidate (H : String → String) (f : Option PFile)
    (provider : Option String) (memo : HashMemo) (s : CacheState) :
    Except Unit Nat × CacheState × HashMemo :=
  let allKeys := (s.backends.map Tier.tkeys).flatten
  match TranscriptionCache.phase1 H f provider allKeys memo with
  | (Except.error e, memo2) => (Except.error e, s, memo2)
  | (Except.ok dels, memo2) =>
      let p2 := TranscriptionCache.phase2 dels s.backends s.stats
      let s2 := { s with backends := p2.2.1, stats := p2.2.2 }
      let memo3 :=
        match f with
        | some file => CacheKey.clear_hash_cache_path memo2 file.path
        | none => if p2.1 > 0 then [] else memo2
      (Except.ok p2.1, s2, memo3)

/-- C9 counterexample: for hits = 1, misses = 1 the code's hit_rate is 50
(a percentage), not the rational hits / (hits + misses) = 1/2 the claim
states. -/
theorem c9_hit_rate_counterexample :
    CacheStats.hit_rate ⟨1, 1, 0, 0, 0⟩ ≠ (1 : ℚ) / (1 + 1) := by
  norm_num [CacheStats.hit_rate]

/-- C9 amended: with hits + misses > 0, the derived hit_rate equals
100 · hits / (hits + misses) — the hit ratio expressed as a percentage. -/
theorem c9_hit_rate_amended (st : CacheStats) (h : 0 < st.hits + st.misses) :
    st.hit_rate = 100 * (st.hits : ℚ) / ((st.hits : ℚ) + (st.misses : ℚ)) := by
  have hne : st.hits + st.misses ≠ 0 := Nat.pos_iff_ne_zero.mp h
  unfold CacheStats.hit_rate
  simp only [hne, if_false]
  push_cast
  ring

/-- Witness for C9 amended at hits = 3, misses = 1: hit_rate is 75. -/
theorem c9_hit_rate_amended_witness :
    CacheStats.hit_rate ⟨3, 1, 0, 0, 0⟩ =
      100 * ((3 : ℚ)) / ((3 : ℚ) + (1 : ℚ)) :=
  c9_hit_rate_amended ⟨3, 1, 0, 0, 0⟩ (by norm_num)

/-- C8 counterexample: a bytes value takes the `str()` fallback in
`to_dict`, and `from_dict` keeps that string, so the round trip is not the
original entry. -/
theorem c8_roundtrip_counterexample :
    CacheEntry.from_dict (CacheEntry.to_dict
        ⟨⟨"f", "p", "s"⟩, PyValue.pbytes [98, 99], 2, 0, 0, 0, none, []⟩) ≠
      ⟨⟨"f", "p", "s"⟩, PyValue.pbytes [98, 99], 2, 0, 0, 0, none, []⟩ := by
  decide

/-- C8 amended: the serialization round trip reproduces the entry exactly
when its value is natively JSON-serializable; a value that required the
string fallback comes back as the entry with its value replaced by that
value's `str()` rendering. -/
theorem c8_roundtrip_amended (e : CacheEntry) :
    (e.value.jsonSerializable = true →
      CacheEntry.from_dict (CacheEntry.to_dict e) = e) ∧
    (e.value.jsonSerializable = false →
      CacheEntry.from_dict (CacheEntry.to_dict e) =
        { e with value := PyValue.pstr e.value.pyStr }) := by
  constructor <;> intro h <;>
    simp [CacheEntry.to_dict, CacheEntry.from_dict, h]

/-- Witness for C8 amended: a string-valued entry round-trips to itself and
a bytes-valued entry round-trips to its `str()` rendering. -/
theorem c8_roundtrip_amended_witness :
    CacheEntry.from_dict (CacheEntry.to_dict
        ⟨⟨"f", "p", "s"⟩, PyValue.pstr "hello", 5, 0, 0, 0, some 60, []⟩) =
      ⟨⟨"f", "p", "s"⟩, PyValue.pstr "hello", 5, 0, 0, 0, some 60, []⟩ ∧
    CacheEntry.from_dict (CacheEntry.to_dict
        ⟨⟨"f", "p", "s"⟩, PyValue.pbytes [98, 99], 2, 0, 0, 0, none, []⟩) =
      { (⟨⟨"f", "p", "s"⟩, PyValue.pbytes [98, 99], 2, 0, 0, 0, none,
          []⟩ : CacheEntry) with
        value := PyValue.pstr (PyValue.pbytes [98, 99]).pyStr } :=
  ⟨(c8_roundtrip_amended
      ⟨⟨"f", "p", "s"⟩, PyValue.pstr "hello", 5, 0, 0, 0, some 60, []⟩).1
      (by decide),
   (c8_roundtrip_amended
      ⟨⟨"f", "p", "s"⟩, PyValue.pbytes [98, 99], 2, 0, 0, 0, none, []⟩).2
      (by decide)⟩

/-- C5 (code bug): on a cache exactly as the constructor produces it,
`clear()` raises AttributeError — `__init__` never assigns the
`_warm_keys` attribute that `clear` ends by calling `.clear()` on — instead
of returning the number of cleared entries. The tiers have been cleared and
the stats reset by the time of the raise; on a fresh cache that state
coincides with the constructed one. -/
theorem c5_clear_raises :
    TranscriptionCache.clear
        (TranscriptionCache.init none 1000 10000 (some 3600) true) =
      (Except.error "AttributeError: _warm_keys",
        TranscriptionCache.init none 1000 10000 (some 3600) true) := by
  rfl

lemma alookup_aupsert_self (l : List (String × CacheEntry)) (k : String)
    (e : CacheEntry) : alookup (aupsert l k e) k = some e := by
  induction l with
  | nil => simp [aupsert, alookup]
  | cons p rest ih =>
      obtain ⟨a, b⟩ := p
      by_cases h : a = k
      · simp [aupsert, alookup, h]
      · simp [aupsert, alookup, h, ih]

lemma evictCountLoop_no_evict (fuel : Nat) (s : CacheState)
    (h : s.stats.entry_count < s.max_entries) :
    TranscriptionCache.evictCountLoop fuel s = some s := by
  cases fuel <;> simp [TranscriptionCache.evictCountLoop, not_le.mpr h]

lemma evictSizeLoop_fit (required : Int) (fuel : Nat) (s : CacheState)
    (h : ¬(s.stats.size_bytes + required > s.max_size_bytes)) :
    TranscriptionCache.evictSizeLoop required fuel s = some s := by
  cases fuel <;> simp [TranscriptionCache.evictSizeLoop, h]

lemma evict_if_needed_noop (fuel : Nat) (required : Int) (s : CacheState)
    (h1 : s.stats.entry_count < s.max_entries)
    (h2 : ¬(s.stats.size_bytes + required > s.max_size_bytes)) :
    TranscriptionCache._evict_if_needed fuel required s = some s := by
  simp [TranscriptionCache._evict_if_needed, evictCountLoop_no_evict fuel s h1,
    evictSizeLoop_fit required fuel s h2]

lemma put_no_evict_success (fuel : Nat) (now : Int) (enc : PyValue → PyValue)
    (ck : CacheKey) (value : PyValue) (ttl : Option Int)
    (md : Option (List (String × PyValue))) (s : CacheState) (t : Tier)
    (rest : List Tier)
    (hb : s.backends = t :: rest) (hput : t.putOk = true)
    (hvalid : ¬((TranscriptionCache._calculate_size
        (if s.enable_compression then enc value else value) : Int) >
        s.max_size_bytes))
    (hcount : s.stats.entry_count < s.max_entries)
    (hfit : ¬(s.stats.size_bytes + (TranscriptionCache._calculate_size
        (if s.enable_compression then enc value else value) : Int) >
        s.max_size_bytes)) :
    TranscriptionCache.put fuel now enc ck value ttl md s =
      some (true,
        { s with
          backends := ({ t with store := (aupsert t.store ck.str
            (TranscriptionCache._create_cache_entry now ck
              (if s.enable_compression then enc value else value)
              (TranscriptionCache._calculate_size
                (if s.enable_compression then enc value else value))
              ttl md s.default_ttl)) }) :: rest,
          stats := ({ s.stats with
            entry_count := s.stats.entry_count + 1,
            size_bytes := s.stats.size_bytes +
              (TranscriptionCache._calculate_size
                (if s.enable_compression then enc value else value) : Int) }) }) := by
  unfold TranscriptionCache.put
  have hv : TranscriptionCache._validate_entry_size s.max_size_bytes
      (TranscriptionCache._calculate_size
        (if s.enable_compression then enc value else value) : Int) = true := by
    simp [TranscriptionCache._validate_entry_size, hvalid]
  simp only [hv, Bool.not_true, Bool.false_eq_true, if_false]
  unfold TranscriptionCache._store_entry_in_backend
  rw [evict_if_needed_noop fuel _ s hcount hfit]
  simp only [Option.map_some']
  rw [hb]
  simp [Tier.tput, hput]

lemma put_no_evict_write_fail (fuel : Nat) (now : Int) (enc : PyValue → PyValue)
    (ck : CacheKey) (value : PyValue) (ttl : Option Int)
    (md : Option (List (String × PyValue))) (s : CacheState) (t : Tier)
    (rest : List Tier)
    (hb : s.backends = t :: rest) (hput : t.putOk = false)
    (hvalid : ¬((TranscriptionCache._calculate_size
        (if s.enable_compression then enc value else value) : Int) >
        s.max_size_bytes))
    (hcount : s.stats.entry_count < s.max_entries)
    (hfit : ¬(s.stats.size_bytes + (TranscriptionCache._calculate_size
        (if s.enable_compression then enc value else value) : Int) >
        s.max_size_bytes)) :
    TranscriptionCache.put fuel now enc ck value ttl md s = some (false, s) := by
  unfold TranscriptionCache.put
  have hv : TranscriptionCache._validate_entry_size s.max_size_bytes
      (TranscriptionCache._calculate_size
        (if s.enable_compression then enc value else value) : Int) = true := by
    simp [TranscriptionCache._validate_entry_size, hvalid]
  simp only [hv, Bool.not_true, Bool.false_eq_true, if_false]
  unfold TranscriptionCache._store_entry_in_backend
  rw [evict_if_needed_noop fuel _ s hcount hfit]
  simp only [Option.map_some']
  rw [hb]
  simp [Tier.tput, hput, ← hb]

/-- C6 amended: the entry stored by `put` has ttl equal to the explicit ttl
whenever one was given and it is nonzero; an explicit ttl of 0 — like no
ttl at all — falls back to the cache's default_ttl, because the source uses
Python's `or` (`ttl or self.default_ttl`) and `0` is falsy. Stated for put
calls that reach the tier-0 write with no eviction needed and a working
backend. -/
theorem c6_ttl_amended (fuel : Nat) (now : Int) (enc : PyValue → PyValue)
    (ck : CacheKey) (value : PyValue) (ttl : Option Int)
    (md : Option (List (String × PyValue))) (s : CacheState) (t : Tier)
    (rest : List Tier)
    (hb : s.backends = t :: rest) (hput : t.putOk = true)
    (hvalid : ¬((TranscriptionCache._calculate_size
        (if s.enable_compression then enc value else value) : Int) >
        s.max_size_bytes))
    (hcount : s.stats.entry_count < s.max_entries)
    (hfit : ¬(s.stats.size_bytes + (TranscriptionCache._calculate_size
        (if s.enable_compression then enc value else value) : Int) >
        s.max_size_bytes)) :
    ∃ s2 e, TranscriptionCache.put fuel now enc ck value ttl md s =
        some (true, s2) ∧
      (s2.backends.headD ⟨[], true⟩).tget ck.str = some e ∧
      (∀ v, ttl = some v → v ≠ 0 → e.ttl = some v) ∧
      ((ttl = none ∨ ttl = some 0) → e.ttl = s.default_ttl) := by
  have hmain := put_no_evict_success fuel now enc ck value ttl md s t rest hb
    hput hvalid hcount hfit
  refine ⟨_, TranscriptionCache._create_cache_entry now ck
      (if s.enable_compression then enc value else value)
      (TranscriptionCache._calculate_size
        (if s.enable_compression then enc value else value))
      ttl md s.default_ttl, hmain, ?_, ?_, ?_⟩
  · simp [Tier.tget, alookup_aupsert_self]
  · intro v hv0 hvne
    simp [TranscriptionCache._create_cache_entry, pyOrTTL, hv0, hvne]
  · intro hcase
    rcases hcase with h0 | h0 <;>
      simp [TranscriptionCache._create_cache_entry, pyOrTTL, h0]

/-- Witness for C6 amended: on a fresh cache (compression off) a put with
explicit ttl 7 stores an entry whose ttl the theorem pins down. -/
theorem c6_ttl_amended_witness :
    ∃ s2 e, TranscriptionCache.put 1 0 id ⟨"f", "p", "s"⟩ (PyValue.pstr "v")
        (some 7) none
        (TranscriptionCache.init none 1000 10000 (some 3600) false) =
        some (true, s2) ∧
      (s2.backends.headD ⟨[], true⟩).tget (CacheKey.str ⟨"f", "p", "s"⟩) =
        some e ∧
      (∀ v, (some 7 : Option Int) = some v → v ≠ 0 → e.ttl = some v) ∧
      (((some 7 : Option Int) = none ∨ (some 7 : Option Int) = some 0) →
        e.ttl =
          (TranscriptionCache.init none 1000 10000
            (some 3600) false).default_ttl) :=
  c6_ttl_amended 1 0 id ⟨"f", "p", "s"⟩ (PyValue.pstr "v") (some 7) none
    (TranscriptionCache.init none 1000 10000 (some 3600) false)
    ⟨[], true⟩ [] rfl rfl (by decide) (by decide) (by decide)

theorem c6_ttl_counterexample :
    ((TranscriptionCache.put 1 0 id ⟨"f", "p", "s"⟩ (PyValue.pstr "v")
        (some 0) none
        (TranscriptionCache.init none 1000 10000 (some 3600) false)).map
      fun r => ((r.2.backends.headD ⟨[], true⟩).tget
        (CacheKey.str ⟨"f", "p", "s"⟩)).map CacheEntry.ttl) =
      some (some (some 3600)) ∧
    ((TranscriptionCache.put 1 0 id ⟨"f", "p", "s"⟩ (PyValue.pstr "v")
        (some 0) none
        (TranscriptionCache.init none 1000 10000 (some 3600) false)).map
      fun r => ((r.2.backends.headD ⟨[], true⟩).tget
        (CacheKey.str ⟨"f", "p", "s"⟩)).map CacheEntry.ttl) ≠
      some (some (some 0)) := by
  constructor <;> decide

/-- C4 amended: when the tier-0 write fails and the eviction phase had
nothing to do (entry count under the limit, new size fits), `put` returns
false as a boolean and the whole state — in particular all five statistics —
is exactly the state before the call. (When the eviction phase did evict,
its statistics changes persist; see the counterexample.) -/
theorem c4_put_write_fail_amended (fuel : Nat) (now : Int)
    (enc : PyValue → PyValue) (ck : CacheKey) (value : PyValue)
    (ttl : Option Int) (md : Option (List (String × PyValue)))
    (s : CacheState) (t : Tier) (rest : List Tier)
    (hb : s.backends = t :: rest) (hput : t.putOk = false)
    (hvalid : ¬((TranscriptionCache._calculate_size
        (if s.enable_compression then enc value else value) : Int) >
        s.max_size_bytes))
    (hcount : s.stats.entry_count < s.max_entries)
    (hfit : ¬(s.stats.size_bytes + (TranscriptionCache._calculate_size
        (if s.enable_compression then enc value else value) : Int) >
        s.max_size_bytes)) :
    ∃ r, TranscriptionCache.put fuel now enc ck value ttl md s = some r ∧
      r.1 = false ∧ r.2.stats = s.stats ∧ r.2 = s :=
  ⟨(false, s),
    put_no_evict_write_fail fuel now enc ck value ttl md s t rest hb hput
      hvalid hcount hfit, rfl, rfl, rfl⟩

/-- Witness for C4 amended: a cache whose only backend rejects writes, with
room to spare; put returns false and the state is untouched. -/
theorem c4_put_write_fail_amended_witness :
    ∃ r, TranscriptionCache.put 3 1 id ⟨"f", "p", "s"⟩ (PyValue.pstr "v")
        none none
        { backends := [⟨[], false⟩], max_size_bytes := 1048576000,
          max_entries := 10, default_ttl := none,
          enable_compression := false, stats := ⟨2, 3, 4, 100, 5⟩,
          warm_keys := none } = some r ∧
      r.1 = false ∧
      r.2.stats = (⟨2, 3, 4, 100, 5⟩ : CacheStats) ∧
      r.2 =
        { backends := [⟨[], false⟩], max_size_bytes := 1048576000,
          max_entries := 10, default_ttl := none,
          enable_compression := false, stats := ⟨2, 3, 4, 100, 5⟩,
          warm_keys := none } :=
  c4_put_write_fail_amended 3 1 id ⟨"f", "p", "s"⟩ (PyValue.pstr "v") none
    none _ ⟨[], false⟩ [] rfl rfl (by decide) (by decide) (by decide)

/-- C4 counterexample: with the entry-count limit already reached, `put`
first evicts (bumping `evictions`, dropping `entry_count`/`size_bytes`),
then the tier-0 write fails; put returns false but the statistics are not
the ones from before the call. -/
theorem c4_atomicity_counterexample :
    ((TranscriptionCache.put 4 1 id ⟨"f", "p", "s"⟩ (PyValue.pstr "v") none
        none
        { backends := [⟨[("k0",
            ⟨⟨"a", "b", "c"⟩, PyValue.pstr "old", 50, 0, 0, 0, none, []⟩)],
            false⟩],
          max_size_bytes := 1048576000, max_entries := 1,
          default_ttl := none, enable_compression := false,
          stats := ⟨0, 0, 0, 50, 1⟩, warm_keys := none }).map
      fun r => (r.1, r.2.stats)) = some (false, ⟨0, 0, 1, 0, 0⟩) ∧
    (⟨0, 0, 1, 0, 0⟩ : CacheStats) ≠ ⟨0, 0, 0, 50, 1⟩ := by
  constructor <;> decide

/-- The state C2's claim breaks on: the recorded entry_count (1) has
drifted above the actual tier-0 contents (empty) — reachable by a `put`
followed by a lazy-expire deletion during `get`, which deletes from the
tier without decrementing the counter — and `max_entries = 1`, so the
entry-count loop condition holds while no victim exists. -/
def c2StuckState : CacheState :=
  { backends := [⟨[], true⟩], max_size_bytes := 1048576000,
    max_entries := 1, default_ttl := some 3600, enable_compression := false,
    stats := ⟨0, 0, 0, 0, 1⟩, warm_keys := none }

/-- C2 (code bug): the evict-to-make-room phase of `put` does NOT always
terminate. On a state whose recorded entry_count is at the limit while
tier 0 is empty, `_evict_one` keeps returning false, but the entry-count
loop — unlike the size loop — ignores that return value, so
`_evict_if_needed` (and hence `put`) runs forever: it returns `none` (fuel
exhausted with the loop condition still true) for every fuel. -/
theorem c2_evict_phase_nonterminating :
    (∀ (fuel : Nat) (required : Int),
      TranscriptionCache._evict_if_needed fuel required c2StuckState = none) ∧
    (∀ fuel : Nat,
      TranscriptionCache.put fuel 2 id ⟨"f", "p", "s"⟩ (PyValue.pstr "v")
        none none c2StuckState = none) := by
  have hone : (TranscriptionCache._evict_one c2StuckState).2 = c2StuckState := by
    decide
  have hcount : ∀ f, TranscriptionCache.evictCountLoop f c2StuckState = none := by
    intro f
    induction f with
    | zero => decide
    | succ g ih =>
        have hstep : TranscriptionCache.evictCountLoop (g + 1) c2StuckState =
            TranscriptionCache.evictCountLoop g
              (TranscriptionCache._evict_one c2StuckState).2 := by
          show (if c2StuckState.stats.entry_count ≥ c2StuckState.max_entries
              then TranscriptionCache.evictCountLoop g
                (TranscriptionCache._evict_one c2StuckState).2
              else some c2StuckState) = _
          rw [if_pos (by decide)]
        rw [hstep, hone]
        exact ih
  have hneed : ∀ (fuel : Nat) (required : Int),
      TranscriptionCache._evict_if_needed fuel required c2StuckState = none := by
    intro fuel required
    simp [TranscriptionCache._evict_if_needed, hcount fuel]
  refine ⟨hneed, ?_⟩
  intro fuel
  simp only [TranscriptionCache.put]
  split
  · rename_i hcond
    exact absurd hcond (by decide)
  · simp only [TranscriptionCache._store_entry_in_backend]
    rw [hneed fuel _]
    rfl

lemma alookup_eq_none_of_not_mem (l : List (String × CacheEntry)) (k : String)
    (h : k ∉ l.map Prod.fst) : alookup l k = none := by
  induction l with
  | nil => simp [alookup]
  | cons p rest ih =>
      obtain ⟨a, b⟩ := p
      simp only [List.map_cons, List.mem_cons] at h
      push_neg at h
      have hne : ¬a = k := fun he => h.1 he.symm
      simp [alookup, hne, ih h.2]

lemma alookup_aremove_self (l : List (String × CacheEntry)) (k : String)
    (hnd : (l.map Prod.fst).Nodup) : alookup (aremove l k) k = none := by
  induction l with
  | nil => simp [aremove, alookup]
  | cons p rest ih =>
      obtain ⟨a, b⟩ := p
      simp only [List.map_cons, List.nodup_cons] at hnd
      by_cases h : a = k
      · subst h
        simpa [aremove] using alookup_eq_none_of_not_mem rest a hnd.1
      · simp [aremove, alookup, h, ih hnd.2]

lemma getWalk_stats_frame (now : Int) (k : String) (c : Bool)
    (dec : PyValue → Option PyValue) :
    ∀ (todo done : List Tier) (st : CacheStats),
      (TranscriptionCache.getWalk now k c dec done todo st).2.2.entry_count =
          st.entry_count ∧
      (TranscriptionCache.getWalk now k c dec done todo st).2.2.size_bytes =
          st.size_bytes ∧
      (TranscriptionCache.getWalk now k c dec done todo st).2.2.evictions =
          st.evictions := by
  intro todo
  induction todo with
  | nil => intro done st; simp [TranscriptionCache.getWalk]
  | cons t rest ih =>
      intro done st
      cases htg : t.tget k with
      | none =>
          simp only [TranscriptionCache.getWalk, htg]
          exact ih _ _
      | some e =>
          cases hexp : e.is_expired now with
          | true =>
              simp only [TranscriptionCache.getWalk, htg, hexp, if_true]
              exact ih _ _
          | false =>
              simp [TranscriptionCache.getWalk, htg, hexp]

lemma getWalk_all_miss (now : Int) (k : String) (c : Bool)
    (dec : PyValue → Option PyValue) :
    ∀ (todo done : List Tier) (st : CacheStats),
      (∀ t ∈ todo, t.tget k = none) →
      TranscriptionCache.getWalk now k c dec done todo st =
        (none, done ++ todo, { st with misses := st.misses + 1 }) := by
  intro todo
  induction todo with
  | nil => intro done st _; simp [TranscriptionCache.getWalk]
  | cons t rest ih =>
      intro done st h
      have ht : t.tget k = none := h t (List.mem_cons_self t rest)
      simp only [TranscriptionCache.getWalk, ht]
      rw [ih (done ++ [t]) st (fun t2 h2 => h t2 (List.mem_cons_of_mem _ h2))]
      simp

/-- C3: lazy expiration on `get` — when the tier at index i yields a
present-but-expired entry, the walk deletes that entry from exactly that
tier and continues to tier i+1 with the same statistics (the expired entry
is neither returned nor counted as a hit: when no later tier holds the key,
the call returns absent with `hits` unchanged), and over the entire call
the lazy-expire deletion never decrements the recorded `entry_count` or
`size_bytes`. -/
theorem c3_lazy_expiration (now : Int) (k : String) (c : Bool)
    (dec : PyValue → Option PyValue) (done rest : List Tier) (t : Tier)
    (st : CacheStats) (e : CacheEntry)
    (hfetch : t.tget k = some e) (hexp : e.is_expired now = true)
    (hnd : (t.store.map Prod.fst).Nodup) :
    TranscriptionCache.getWalk now k c dec done (t :: rest) st =
      TranscriptionCache.getWalk now k c dec (done ++ [(t.tdelete k).2]) rest
        st ∧
    (t.tdelete k).2.tget k = none ∧
    (TranscriptionCache.getWalk now k c dec done (t :: rest) st).2.2.entry_count =
      st.entry_count ∧
    (TranscriptionCache.getWalk now k c dec done (t :: rest) st).2.2.size_bytes =
      st.size_bytes ∧
    ((∀ t2 ∈ rest, t2.tget k = none) →
      (TranscriptionCache.getWalk now k c dec done (t :: rest) st).1 = none ∧
      (TranscriptionCache.getWalk now k c dec done (t :: rest) st).2.2.hits =
        st.hits) := by
  have hstep : TranscriptionCache.getWalk now k c dec done (t :: rest) st =
      TranscriptionCache.getWalk now k c dec (done ++ [(t.tdelete k).2]) rest
        st := by
    simp only [TranscriptionCache.getWalk, hfetch, hexp, if_true]
  have hdel : (t.tdelete k).2.tget k = none := by
    have hsome : (alookup t.store k).isSome = true := by
      have : alookup t.store k = some e := hfetch
      simp [this]
    simp only [Tier.tdelete, hsome, if_true, Tier.tget]
    exact alookup_aremove_self t.store k hnd
  refine ⟨hstep, hdel, ?_, ?_, ?_⟩
  · exact (getWalk_stats_frame now k c dec (t :: rest) done st).1
  · exact (getWalk_stats_frame now k c dec (t :: rest) done st).2.1
  · intro hmiss
    rw [hstep, getWalk_all_miss now k c dec rest _ st hmiss]
    exact ⟨rfl, rfl⟩

/-- Witness for C3: a single tier holding an expired entry (created at 0
with ttl 5, read at time 10) and no later tiers; the deletion, the stats
preservation, and the miss outcome are all instantiated. -/
theorem c3_lazy_expiration_witness :
    TranscriptionCache.getWalk 10 "K" false Option.some []
        [⟨[("K", ⟨⟨"x", "y", "z"⟩, PyValue.pstr "w", 3, 0, 0, 0, some 5, []⟩)],
          true⟩] ⟨1, 2, 3, 40, 5⟩ =
      TranscriptionCache.getWalk 10 "K" false Option.some
        [((⟨[("K", ⟨⟨"x", "y", "z"⟩, PyValue.pstr "w", 3, 0, 0, 0, some 5,
          []⟩)], true⟩ : Tier).tdelete "K").2] [] ⟨1, 2, 3, 40, 5⟩ ∧
    ((⟨[("K", ⟨⟨"x", "y", "z"⟩, PyValue.pstr "w", 3, 0, 0, 0, some 5, []⟩)],
      true⟩ : Tier).tdelete "K").2.tget "K" = none ∧
    (TranscriptionCache.getWalk 10 "K" false Option.some []
        [⟨[("K", ⟨⟨"x", "y", "z"⟩, PyValue.pstr "w", 3, 0, 0, 0, some 5, []⟩)],
          true⟩] ⟨1, 2, 3, 40, 5⟩).2.2.entry_count = 5 ∧
    (TranscriptionCache.getWalk 10 "K" false Option.some []
        [⟨[("K", ⟨⟨"x", "y", "z"⟩, PyValue.pstr "w", 3, 0, 0, 0, some 5, []⟩)],
          true⟩] ⟨1, 2, 3, 40, 5⟩).2.2.size_bytes = 40 ∧
    (TranscriptionCache.getWalk 10 "K" false Option.some []
        [⟨[("K", ⟨⟨"x", "y", "z"⟩, PyValue.pstr "w", 3, 0, 0, 0, some 5, []⟩)],
          true⟩] ⟨1, 2, 3, 40, 5⟩).1 = none ∧
    (TranscriptionCache.getWalk 10 "K" false Option.some []
        [⟨[("K", ⟨⟨"x", "y", "z"⟩, PyValue.pstr "w", 3, 0, 0, 0, some 5, []⟩)],
          true⟩] ⟨1, 2, 3, 40, 5⟩).2.2.hits = 1 := by
  have h := c3_lazy_expiration 10 "K" false Option.some [] []
    ⟨[("K", ⟨⟨"x", "y", "z"⟩, PyValue.pstr "w", 3, 0, 0, 0, some 5, []⟩)],
      true⟩ ⟨1, 2, 3, 40, 5⟩
    ⟨⟨"x", "y", "z"⟩, PyValue.pstr "w", 3, 0, 0, 0, some 5, []⟩
    (by decide) (by decide) (by decide)
  have hm := h.2.2.2.2 (by intro t2 h2; cases h2)
  exact ⟨h.1, h.2.1, h.2.2.1, h.2.2.2.1, hm.1, hm.2⟩

/-- C7: promotion frame — `_promote_entry` writes the entry into every tier
with index strictly below the hit level (each such tier, when its backend
accepts writes, afterwards maps the key to the entry) and leaves every tier
with index at or above the hit level untouched; in particular, seeding only
tier 1 with a fresh entry and then calling `get` for that key leaves tier 0
holding the (touched) entry. -/
theorem c7_promotion (k : String) (e : CacheEntry) (i : Nat)
    (tiers : List Tier) :
    (∀ j, j < i → ∀ t0 : Tier, tiers[j]? = some t0 → t0.putOk = true →
      (TranscriptionCache._promote_entry k e i tiers)[j]? =
        some { t0 with store := aupsert t0.store k e } ∧
      Tier.tget { t0 with store := aupsert t0.store k e } k = some e) ∧
    (∀ j, i ≤ j →
      (TranscriptionCache._promote_entry k e i tiers)[j]? = tiers[j]?) ∧
    ((TranscriptionCache.get 9 Option.some "K"
        { backends := [⟨[], true⟩,
            ⟨[("K", ⟨⟨"x", "y", "z"⟩, PyValue.pstr "w", 3, 0, 0, 0, none,
              []⟩)], true⟩],
          max_size_bytes := 1000000, max_entries := 10, default_ttl := none,
          enable_compression := false, stats := ⟨0, 0, 0, 0, 1⟩,
          warm_keys := none }).2.backends.headD ⟨[], true⟩).tget "K" =
      some (CacheEntry.touch
        ⟨⟨"x", "y", "z"⟩, PyValue.pstr "w", 3, 0, 0, 0, none, []⟩ 9) := by
  have hlen : (TranscriptionCache._promote_entry k e i tiers).length =
      tiers.length := by
    simp [TranscriptionCache._promote_entry]
  refine ⟨?_, ?_, ?_⟩
  · intro j hji t0 ht0 hput
    have hjl : j < tiers.length := by
      by_contra hc
      push_neg at hc
      rw [List.getElem?_eq_none hc] at ht0
      cases ht0
    have hjl2 : j < (TranscriptionCache._promote_entry k e i tiers).length := by
      rw [hlen]; exact hjl
    have hval : tiers[j] = t0 := by
      rw [List.getElem?_eq_getElem hjl] at ht0
      exact Option.some.inj ht0
    have hmap : (TranscriptionCache._promote_entry k e i tiers)[j] =
        (if j < i then ((tiers[j]).tput k e).2 else tiers[j]) := by
      simp [TranscriptionCache._promote_entry, List.get_eq_getElem,
        List.get_mapIdx tiers
          (fun i2 t => if i2 < i then (t.tput k e).2 else t) j hjl]
    rw [List.getElem?_eq_getElem hjl2, hmap, if_pos hji, hval]
    constructor
    · simp [Tier.tput, hput]
    · simp [Tier.tget, alookup_aupsert_self]
  · intro j hij
    by_cases hjl : j < tiers.length
    · have hjl2 : j < (TranscriptionCache._promote_entry k e i tiers).length := by
        rw [hlen]; exact hjl
      have hmap : (TranscriptionCache._promote_entry k e i tiers)[j] =
          (if j < i then ((tiers[j]).tput k e).2 else tiers[j]) := by
        simp [TranscriptionCache._promote_entry, List.get_eq_getElem,
          List.get_mapIdx tiers
            (fun i2 t => if i2 < i then (t.tput k e).2 else t) j hjl]
      rw [List.getElem?_eq_getElem hjl2, List.getElem?_eq_getElem hjl, hmap,
        if_neg (not_lt.mpr hij)]
    · push_neg at hjl
      rw [List.getElem?_eq_none hjl,
        List.getElem?_eq_none (by rw [hlen]; exact hjl)]
  · decide

/-- Witness for C7: promoting into the first two of three empty tiers
writes the entry into tier 0, leaves tier 2 untouched, and the seeded
two-tier `get` scenario holds. -/
theorem c7_promotion_witness :
    ((TranscriptionCache._promote_entry "K"
        ⟨⟨"x", "y", "z"⟩, PyValue.pstr "w", 3, 0, 0, 0, none, []⟩ 2
        [⟨[], true⟩, ⟨[], true⟩, ⟨[], true⟩])[0]? =
      some { (⟨[], true⟩ : Tier) with store := (aupsert [] "K"
        ⟨⟨"x", "y", "z"⟩, PyValue.pstr "w", 3, 0, 0, 0, none, []⟩) } ∧
      Tier.tget { (⟨[], true⟩ : Tier) with store := (aupsert [] "K"
        ⟨⟨"x", "y", "z"⟩, PyValue.pstr "w", 3, 0, 0, 0, none, []⟩) } "K" =
        some ⟨⟨"x", "y", "z"⟩, PyValue.pstr "w", 3, 0, 0, 0, none, []⟩) ∧
    (TranscriptionCache._promote_entry "K"
        ⟨⟨"x", "y", "z"⟩, PyValue.pstr "w", 3, 0, 0, 0, none, []⟩ 2
        [⟨[], true⟩, ⟨[], true⟩, ⟨[], true⟩])[2]? =
      [(⟨[], true⟩ : Tier), ⟨[], true⟩, ⟨[], true⟩][2]? ∧
    ((TranscriptionCache.get 9 Option.some "K"
        { backends := [⟨[], true⟩,
            ⟨[("K", ⟨⟨"x", "y", "z"⟩, PyValue.pstr "w", 3, 0, 0, 0, none,
              []⟩)], true⟩],
          max_size_bytes := 1000000, max_entries := 10, default_ttl := none,
          enable_compression := false, stats := ⟨0, 0, 0, 0, 1⟩,
          warm_keys := none }).2.backends.headD ⟨[], true⟩).tget "K" =
      some (CacheEntry.touch
        ⟨⟨"x", "y", "z"⟩, PyValue.pstr "w", 3, 0, 0, 0, none, []⟩ 9) := by
  have h := c7_promotion "K"
    ⟨⟨"x", "y", "z"⟩, PyValue.pstr "w", 3, 0, 0, 0, none, []⟩ 2
    [⟨[], true⟩, ⟨[], true⟩, ⟨[], true⟩]
  exact ⟨h.1 0 (by decide) ⟨[], true⟩ rfl rfl, h.2.1 2 (by decide), h.2.2⟩

lemma phase1_stat_error (H : String → String) (f : PFile)
    (provider : Option String) (hstat : f.content = none) :
    ∀ (ks : List String) (memo : HashMemo),
      (∃ k ∈ ks, (pySplit k ':').length = 3 ∧
        providerMatch provider ((pySplit k ':').tail.headD "") = true) →
      TranscriptionCache.phase1 H (some f) provider ks memo =
        (Except.error (), memo) := by
  intro ks
  induction ks with
  | nil =>
      intro memo h
      obtain ⟨k, hk, _⟩ := h
      cases hk
  | cons k0 ks ih =>
      intro memo h
      by_cases h3 : (pySplit k0 ':').length ≠ 3
      · have hrec : TranscriptionCache.phase1 H (some f) provider (k0 :: ks)
            memo = TranscriptionCache.phase1 H (some f) provider ks memo := by
          simp only [TranscriptionCache.phase1, if_pos h3]
        rw [hrec]
        apply ih
        obtain ⟨k, hk, hprop⟩ := h
        rcases List.mem_cons.mp hk with he | hm
        · exact absurd hprop.1 (he ▸ h3)
        · exact ⟨k, hm, hprop⟩
      · by_cases hpm : providerMatch provider
            ((pySplit k0 ':').tail.headD "") = true
        · simp only [TranscriptionCache.phase1, if_neg h3, hpm,
            Bool.not_true, Bool.false_eq_true, if_false,
            CacheKey._hash_file_stat, hstat]
        · have hpm2 : providerMatch provider
              ((pySplit k0 ':').tail.headD "") = false :=
            Bool.eq_false_iff.mpr hpm
          have hrec : TranscriptionCache.phase1 H (some f) provider (k0 :: ks)
              memo = TranscriptionCache.phase1 H (some f) provider ks memo := by
            simp only [TranscriptionCache.phase1, if_neg h3, hpm2,
              Bool.not_false, if_true]
          rw [hrec]
          apply ih
          obtain ⟨k, hk, hprop⟩ := h
          rcases List.mem_cons.mp hk with he | hm
          · exact absurd (he ▸ hprop.2) hpm
          · exact ⟨k, hm, hprop⟩

/-- C10: when the file given to `invalidate` cannot be stat'ed and some
backend holds at least one well-formed key (three colon-separated segments)
that passes the provider filter, phase 1 reaches the hash recomputation,
the OSError propagates out of `invalidate` as an exception, and the cache
state — every tier, and the statistics — is exactly as before the call (no
entry was deleted), with the hash memo also untouched. -/
theorem c10_invalidate_error_atomicity (H : String → String) (f : PFile)
    (provider : Option String) (memo : HashMemo) (s : CacheState)
    (hstat : f.content = none)
    (hkey : ∃ k ∈ (s.backends.map Tier.tkeys).flatten,
      (pySplit k ':').length = 3 ∧
      providerMatch provider ((pySplit k ':').tail.headD "") = true) :
    TranscriptionCache.invalidate H (some f) provider memo s =
      (Except.error (), s, memo) := by
  simp only [TranscriptionCache.invalidate]
  rw [phase1_stat_error H f provider hstat
    ((s.backends.map Tier.tkeys).flatten) memo hkey]

/-- Witness for C10: one tier holding the single well-formed key "h:p:x",
no provider filter, and a deleted file: invalidate raises and the state and
memo are unchanged. -/
theorem c10_invalidate_error_atomicity_witness :
    TranscriptionCache.invalidate id (some ⟨"gone.mp3", 0, 0, none⟩) none []
        { backends := [⟨[("h:p:x",
            ⟨⟨"h", "p", "x"⟩, PyValue.pstr "w", 3, 0, 0, 0, none, []⟩)],
            true⟩],
          max_size_bytes := 1000000, max_entries := 10, default_ttl := none,
          enable_compression := false, stats := ⟨0, 0, 0, 3, 1⟩,
          warm_keys := none } =
      (Except.error (),
        { backends := [⟨[("h:p:x",
            ⟨⟨"h", "p", "x"⟩, PyValue.pstr "w", 3, 0, 0, 0, none, []⟩)],
            true⟩],
          max_size_bytes := 1000000, max_entries := 10, default_ttl := none,
          enable_compression := false, stats := ⟨0, 0, 0, 3, 1⟩,
          warm_keys := none }, []) :=
  c10_invalidate_error_atomicity id ⟨"gone.mp3", 0, 0, none⟩ none [] _ rfl
    ⟨"h:p:x", by decide, by decide, by decide⟩
